import Mathlib

/-!
Shallow embedding of the cumulative energy-accounting engine
(`EnergyStorage`, src/gz_yeti_pps/energy/storage.py) of GZ-Yeti-PPS.

Python floats are modelled as exact rationals (`ℚ`).  A device-snapshot
value (`Dict[str, Any]` entry) is modelled by `Val`: either a value whose
`float(v)` conversion succeeds with result `q` (`Val.num q` — covers Python
floats, ints and numeric strings), a value on which `float(v)` raises
(`Val.bad`), or Python `None` (`Val.none`).  A snapshot field of type
`Option Val` distinguishes a missing key (`Option.none`) from a key mapped
to Python `None` (`some Val.none`); `dict.get` conflates the two, which
`vget` reproduces.

`update` returns the final field state *and* an optional error: Python
leaves all mutations performed before a raise in place on the object, so
the post-raise state is observable and must be modelled.
-/

/-- A Python value as seen by `float(...)` conversion. -/
inductive Val where
  | num (q : ℚ)
  | bad
  | none
deriving DecidableEq, Repr

/-- `float(v)` as a partial function: `Val.num q ↦ q`, everything else raises. -/
def toFloat? : Val → Option ℚ
  | Val.num q => some q
  | Val.bad => Option.none
  | Val.none => Option.none

/-- One device snapshot: the keys `EnergyStorage.update` reads.
`Option.none` = key absent, `some Val.none` = key present mapping to `None`. -/
structure Snapshot where
  whOut : Option Val
  ampsOut : Option Val
  volts : Option Val
  wattsOut : Option Val
  whStored : Option Val
  socPercent : Option Val
deriving DecidableEq, Repr

/-- `s.get(key)`: returns `None` both for a missing key and for a key mapped to `None`. -/
def vget : Option Val → Val
  | Option.none => Val.none
  | some v => v

/-- The display units accepted by `EnergyStorage` (`_CONVERSIONS` keys). -/
inductive EnergyUnit where
  | wh
  | kwh
  | j
deriving DecidableEq, Repr

/-- `_CONVERSIONS`: factor from the unit to canonical watt-hours. -/
def conversions : EnergyUnit → ℚ
  | EnergyUnit.wh => 1
  | EnergyUnit.kwh => 1000
  | EnergyUnit.j => 1 / 3600

/-- `EnergyStorage._wh_to`: convert canonical watt-hours to a display unit. -/
def wh_to (wh : ℚ) (u : EnergyUnit) : ℚ :=
  wh / conversions u

/-- The Python `str` argument of `switch_unit`, parsed against `_CONVERSIONS`. -/
def parseUnit : String → Option EnergyUnit
  | "wh" => some EnergyUnit.wh
  | "kwh" => some EnergyUnit.kwh
  | "j" => some EnergyUnit.j
  | _ => Option.none

/-- The raise sites of `EnergyStorage`, by exception type and message. -/
inductive Err where
  /-- `KeyError("'whOut' missing in device.state()")` -/
  | missingField
  /-- `ValueError`/`TypeError` raised by a `float(...)` call or `None` arithmetic -/
  | convError
  /-- `ValueError("... must be >= 0")` from the `capacity`/`stored` setters -/
  | invalidValue
  /-- `ValueError("stored energy can't exceed capacity")` -/
  | capacityExceeded
  /-- `ValueError("Unsupported unit: ...")` from `switch_unit` -/
  | unsupportedUnit
deriving DecidableEq, Repr

/-- One history entry as built by `EnergyStorage.update` (lines 175-185). -/
structure Entry where
  timestamp : ℚ
  whOut : ℚ
  delta_wh : ℚ
  total_wh : ℚ
  ampsOut : Option ℚ
  volts : Option ℚ
  wattsOut : Option ℚ
  whStored : Option ℚ
  socPercent : Option ℚ
deriving DecidableEq, Repr

/-- The mutable fields of an `EnergyStorage` object. -/
structure EnergyStorage where
  unit : EnergyUnit
  capacity_wh : ℚ
  stored_wh : ℚ
  initial_wh_out : Option ℚ
  prev_wh_out : Option ℚ
  delta_wh : ℚ
  history : List Entry
  max_history : ℕ
deriving DecidableEq, Repr

/-- `total_out_wh` property: returns `self._delta_wh`. -/
def total_out_wh (st : EnergyStorage) : ℚ :=
  st.delta_wh

/-- `capacity` getter: `_wh_to(self._capacity_wh, self._unit)`. -/
def getCapacity (st : EnergyStorage) : ℚ :=
  wh_to st.capacity_wh st.unit

/-- `stored` getter: `_wh_to(self._stored_wh, self._unit)`. -/
def getStored (st : EnergyStorage) : ℚ :=
  wh_to st.stored_wh st.unit

/-- `capacity` setter (storage.py lines 76-82): reject negatives, store
`value * _CONVERSIONS[unit]`, clamp `_stored_wh` down to the new capacity. -/
def set_capacity (st : EnergyStorage) (value : ℚ) : Except Err EnergyStorage :=
  if value < 0 then Except.error Err.invalidValue
  else
    let cap := value * conversions st.unit
    let stored := if st.stored_wh > cap then cap else st.stored_wh
    Except.ok { st with capacity_wh := cap, stored_wh := stored }

/-- `stored` setter (storage.py lines 88-95): reject negatives, reject
values whose conversion exceeds `_capacity_wh`, otherwise store exactly. -/
def set_stored (st : EnergyStorage) (value : ℚ) : Except Err EnergyStorage :=
  if value < 0 then Except.error Err.invalidValue
  else
    let swh := value * conversions st.unit
    if swh > st.capacity_wh then Except.error Err.capacityExceeded
    else Except.ok { st with stored_wh := swh }

/-- `switch_unit` (storage.py lines 132-135): validate against
`_CONVERSIONS`, then change only `_unit`. -/
def switch_unit (st : EnergyStorage) (new_unit : String) : Except Err EnergyStorage :=
  match parseUnit new_unit with
  | Option.none => Except.error Err.unsupportedUnit
  | some u => Except.ok { st with unit := u }

/-- `deque(maxlen=maxH).append`: append right, evicting from the left once
the bound is exceeded. -/
def appendBounded (h : List Entry) (e : Entry) (maxH : ℕ) : List Entry :=
  let h' := h ++ [e]
  if maxH < h'.length then h'.drop (h'.length - maxH) else h'

/-- `float(x) if x is not None else None` in the history-entry literal:
`Option.none` result = raised. -/
def entryField : Val → Option (Option ℚ)
  | Val.none => some Option.none
  | Val.num q => some (some q)
  | Val.bad => Option.none

/-- `EnergyStorage.update` (storage.py lines 137-186), given the device
snapshot `s` and the clock reading `t`.  Returns the object's field state
after the call together with `some e` when the call raised `e`: Python
keeps every mutation performed before the raise. -/
def update (st : EnergyStorage) (s : Snapshot) (t : ℚ) : EnergyStorage × Option Err :=
  match vget s.whOut with
  | Val.none => (st, some Err.missingField)
  | Val.bad => (st, some Err.convError)
  | Val.num raw =>
    let step : Option (EnergyStorage × ℚ) :=
      match st.initial_wh_out with
      | Option.none =>
        some ({ st with initial_wh_out := some raw, prev_wh_out := some raw }, 0)
      | some _ =>
        match st.prev_wh_out with
        | Option.none => Option.none
        | some p =>
          let d0 := raw - p
          let d := if d0 < 0 then 0 else d0
          some ({ st with delta_wh := st.delta_wh + d, prev_wh_out := some raw }, d)
    match step with
    | Option.none => (st, some Err.convError)
    | some (st1, delta) =>
      let amps := vget s.ampsOut
      let volts := vget s.volts
      let watts0 := vget s.wattsOut
      let watts : Val :=
        if watts0 = Val.none ∧ amps ≠ Val.none ∧ volts ≠ Val.none then
          match toFloat? amps, toFloat? volts with
          | some a, some v => Val.num (a * v)
          | _, _ => Val.none
        else watts0
      let whs := vget s.whStored
      let st2 :=
        if whs = Val.none then st1
        else
          match toFloat? whs with
          | some q =>
            { st1 with stored_wh := if q > st1.capacity_wh then st1.capacity_wh else q }
          | Option.none => st1
      let soc := vget s.socPercent
      match entryField amps, entryField volts, entryField watts, entryField whs, entryField soc with
      | some ao, some vo, some wo, some so, some co =>
        let entry : Entry :=
          { timestamp := t, whOut := raw, delta_wh := delta, total_wh := st2.delta_wh,
            ampsOut := ao, volts := vo, wattsOut := wo, whStored := so, socPercent := co }
        ({ st2 with history := appendBounded st2.history entry st2.max_history }, Option.none)
      | _, _, _, _, _ => (st2, some Err.convError)

/-- `average_power_w` (storage.py lines 121-130). -/
def average_power_w (st : EnergyStorage) : Option ℚ :=
  if st.history.length < 2 then Option.none
  else
    match st.history.head?, st.history.getLast? with
    | some first, some last =>
      let dt := last.timestamp - first.timestamp
      if dt ≤ 0 then Option.none
      else some ((last.total_wh - first.total_wh) / dt * 3600)
    | _, _ => Option.none

/-- `__init__` up to (excluding) the initial `self.update()` call: zeroed
canonical fields, then the `capacity` and `stored` setters in order. -/
def initLedger (capacity stored : ℚ) (u : EnergyUnit) (maxH : ℕ) : Except Err EnergyStorage :=
  let base : EnergyStorage :=
    { unit := u, capacity_wh := 0, stored_wh := 0, initial_wh_out := Option.none,
      prev_wh_out := Option.none, delta_wh := 0, history := [], max_history := maxH }
  match set_capacity base capacity with
  | Except.error e => Except.error e
  | Except.ok st1 =>
    match set_stored st1 stored with
    | Except.error e => Except.error e
    | Except.ok st2 => Except.ok st2

/-- A snapshot reporting only `whOut = r`. -/
def numSnap (r : ℚ) : Snapshot :=
  { whOut := some (Val.num r), ampsOut := Option.none, volts := Option.none,
    wattsOut := Option.none, whStored := Option.none, socPercent := Option.none }

/-- Feed a sequence of raw `whOut` readings through successive `update` calls. -/
def feed (st : EnergyStorage) (rs : List ℚ) : EnergyStorage :=
  rs.foldl (fun a r => (update a (numSnap r) 0).1) st

/-- Sum of consecutive differences of a reading sequence. -/
def consecDiffSum : List ℚ → ℚ
  | a :: b :: t => (b - a) + consecDiffSum (b :: t)
  | _ => 0

/-- The ways a caller can mutate an `EnergyStorage` after construction.
`applyOp` gives the object's field state after the call, whether or not it
raised: none of the setters nor `switch_unit` mutates before raising, and
`update` returns its post-raise state explicitly. -/
inductive Op where
  | setCap (v : ℚ)
  | setStored (v : ℚ)
  | switchU (u : String)
  | upd (s : Snapshot) (t : ℚ)

def applyOp (st : EnergyStorage) : Op → EnergyStorage
  | Op.setCap v =>
    match set_capacity st v with
    | Except.ok st1 => st1
    | Except.error _ => st
  | Op.setStored v =>
    match set_stored st v with
    | Except.ok st1 => st1
    | Except.error _ => st
  | Op.switchU u =>
    match switch_unit st u with
    | Except.ok st1 => st1
    | Except.error _ => st
  | Op.upd s t => (update st s t).1

def runOps (st : EnergyStorage) (ops : List Op) : EnergyStorage :=
  ops.foldl applyOp st

/-- An `update` op whose snapshot does not report a negative `whStored`. -/
def noNegStored : Op → Prop
  | Op.upd s _ => ∀ q : ℚ, toFloat? (vget s.whStored) = some q → 0 ≤ q
  | _ => True

/-- The post-construction state of the scenario ledger
(`capacity=1000`, `stored=500`, unit `wh`), before the first update. -/
def freshSt : EnergyStorage :=
  { unit := EnergyUnit.wh, capacity_wh := 1000, stored_wh := 500,
    initial_wh_out := Option.none, prev_wh_out := Option.none, delta_wh := 0,
    history := [], max_history := 1000 }

instance {e a : Type} [DecidableEq e] [DecidableEq a] : DecidableEq (Except e a) :=
  fun x y =>
  match x, y with
  | Except.ok v, Except.ok w =>
    if h : v = w then Decidable.isTrue (by rw [h])
    else Decidable.isFalse (by simp [h])
  | Except.error v, Except.error w =>
    if h : v = w then Decidable.isTrue (by rw [h])
    else Decidable.isFalse (by simp [h])
  | Except.ok _, Except.error _ => Decidable.isFalse (by simp)
  | Except.error _, Except.ok _ => Decidable.isFalse (by simp)

/-- Second update reporting `whOut = 20` and an `ampsOut` on which `float` raises. -/
def snapAmpsBad : Snapshot :=
  { numSnap 20 with ampsOut := some Val.bad }

/-- Snapshot with a good `whOut` and a `whStored` on which `float` raises. -/
def snapStoredBad : Snapshot :=
  { numSnap 10 with whStored := some Val.bad }

/-- Snapshot where the watts derivation from `ampsOut`/`volts` cannot convert. -/
def snapDeriveBad : Snapshot :=
  { numSnap 10 with ampsOut := some Val.bad, volts := some (Val.num 5) }

/-- Snapshot reporting a negative `whStored`. -/
def snapNegStored : Snapshot :=
  { numSnap 0 with whStored := some (Val.num (-5)) }

/-- Snapshot whose `whOut` key is present but maps to Python `None`. -/
def snapNoneWhOut : Snapshot :=
  { numSnap 0 with whOut := some Val.none }

/-- Snapshot whose `whOut` key maps to a value on which `float` raises. -/
def snapBadWhOut : Snapshot :=
  { numSnap 0 with whOut := some Val.bad }

/-- The scenario ledger with display unit `kwh`. -/
def kwhLedger : EnergyStorage :=
  { freshSt with unit := EnergyUnit.kwh }

/-- Two concrete history entries one second apart. -/
def entryAt (ts tot : ℚ) : Entry :=
  { timestamp := ts, whOut := tot, delta_wh := 0, total_wh := tot,
    ampsOut := Option.none, volts := Option.none, wattsOut := Option.none,
    whStored := Option.none, socPercent := Option.none }

/-- A ledger whose history holds two entries one second apart. -/
def histSt : EnergyStorage :=
  { freshSt with history := [entryAt 100 5, entryAt 101 8] }

lemma conversions_pos (u : EnergyUnit) : 0 < conversions u := by
  cases u <;> norm_num [conversions]

lemma update_numSnap_fresh_proj (st : EnergyStorage) (r t : ℚ)
    (h : st.initial_wh_out = Option.none) :
    ((update st (numSnap r) t).1).delta_wh = st.delta_wh ∧
    ((update st (numSnap r) t).1).initial_wh_out = some r ∧
    ((update st (numSnap r) t).1).prev_wh_out = some r ∧
    ((update st (numSnap r) t).1).stored_wh = st.stored_wh ∧
    ((update st (numSnap r) t).1).capacity_wh = st.capacity_wh ∧
    (update st (numSnap r) t).2 = Option.none := by
  simp [update, numSnap, vget, h, entryField]

lemma update_numSnap_next_proj (st : EnergyStorage) (r t p i : ℚ)
    (hi : st.initial_wh_out = some i) (hp : st.prev_wh_out = some p) :
    ((update st (numSnap r) t).1).delta_wh
      = st.delta_wh + (if r - p < 0 then 0 else r - p) ∧
    ((update st (numSnap r) t).1).initial_wh_out = some i ∧
    ((update st (numSnap r) t).1).prev_wh_out = some r ∧
    ((update st (numSnap r) t).1).stored_wh = st.stored_wh ∧
    ((update st (numSnap r) t).1).capacity_wh = st.capacity_wh ∧
    (update st (numSnap r) t).2 = Option.none := by
  simp [update, numSnap, vget, hi, hp, entryField]

lemma getLast?_getD_cons (r p : ℚ) (rest : List ℚ) :
    ((r :: rest).getLast?.getD p) = rest.getLast?.getD r := by
  induction rest generalizing r p with
  | nil => rfl
  | cons b tl ih =>
    rw [List.getLast?_cons_cons]
    exact (ih b p).trans (ih b r).symm

lemma consecDiffSum_eq (rest : List ℚ) :
    ∀ a : ℚ, consecDiffSum (a :: rest) = rest.getLast?.getD a - a := by
  induction rest with
  | nil => intro a; simp [consecDiffSum]
  | cons b tl ih =>
    intro a
    rw [consecDiffSum, ih b, getLast?_getD_cons]
    ring

lemma feed_delta (rs : List ℚ) :
    ∀ (st : EnergyStorage) (p i : ℚ), st.initial_wh_out = some i →
      st.prev_wh_out = some p → List.Chain (· ≤ ·) p rs →
      (feed st rs).delta_wh = st.delta_wh + (rs.getLast?.getD p - p) := by
  induction rs with
  | nil => intro st p i _ _ _; simp [feed]
  | cons r rest ih =>
    intro st p i hi hp hc
    rcases List.chain_cons.mp hc with ⟨hpr, hcr⟩
    obtain ⟨hd, hio, hpo, -, -, -⟩ := update_numSnap_next_proj st r 0 p i hi hp
    have hstep : feed st (r :: rest) = feed ((update st (numSnap r) 0).1) rest := rfl
    rw [hstep, ih ((update st (numSnap r) 0).1) r i hio hpo hcr, hd,
      if_neg (by linarith : ¬ (r - p < 0)), getLast?_getD_cons]
    ring

/-- C1: for every non-negative, non-decreasing sequence of raw counter
readings fed from a fresh ledger through successive `update` calls, the
cumulative output `total_out_wh` equals the sum of consecutive differences
of the readings, which telescopes to `finalRaw - initialRaw` (the first
tick contributing 0 as the baseline). -/
theorem C1_cumulative_eq_telescope (st0 : EnergyStorage) (r : ℚ) (rest : List ℚ)
    (hfresh : st0.initial_wh_out = Option.none) (hdelta : st0.delta_wh = 0)
    (hnn : ∀ x ∈ r :: rest, 0 ≤ x) (hmono : List.Chain (· ≤ ·) r rest) :
    total_out_wh (feed st0 (r :: rest)) = consecDiffSum (r :: rest) ∧
    consecDiffSum (r :: rest) = rest.getLast?.getD r - r := by
  have htel := consecDiffSum_eq rest r
  refine ⟨?_, htel⟩
  obtain ⟨hd, hio, hpo, -, -, -⟩ := update_numSnap_fresh_proj st0 r 0 hfresh
  have hstep : feed st0 (r :: rest) = feed ((update st0 (numSnap r) 0).1) rest := rfl
  rw [total_out_wh, hstep, feed_delta rest _ r r hio hpo hmono, hd, hdelta, htel]
  ring

/-- C1 witness: readings 10 then 15 from the fresh ledger. -/
theorem C1_witness :
    total_out_wh (feed freshSt [10, 15]) = consecDiffSum [10, 15] ∧
    consecDiffSum [10, 15] = [(15 : ℚ)].getLast?.getD 10 - 10 :=
  C1_cumulative_eq_telescope freshSt 10 [15] rfl rfl
    (by norm_num [List.forall_mem_cons]) (by norm_num [List.chain_cons])

/-- C2: for raw-reading sequences containing resets, the cumulative total
never decreases across updates; a tick whose raw reading is lower than the
previous one contributes exactly 0; and the spec scenario (capacity 1000,
stored 500, unit wh, readings 10, 15, 8, 20) ends with `total_out_wh = 17`. -/
theorem C2_reset_handling :
    (∀ (st : EnergyStorage) (r t : ℚ),
      st.delta_wh ≤ ((update st (numSnap r) t).1).delta_wh) ∧
    (∀ (st : EnergyStorage) (r t p : ℚ), st.prev_wh_out = some p → r < p →
      ((update st (numSnap r) t).1).delta_wh = st.delta_wh) ∧
    (initLedger 1000 500 EnergyUnit.wh 1000).map
      (fun b => total_out_wh (feed b [10, 15, 8, 20])) = Except.ok 17 := by
  refine ⟨?_, ?_, ?_⟩
  case refine_3 =>
    norm_num [initLedger, set_capacity, set_stored, conversions, feed, update,
      numSnap, vget, entryField, total_out_wh, appendBounded, Except.map]
  · intro st r t
    cases hi : st.initial_wh_out with
    | none =>
      obtain ⟨hd, -⟩ := update_numSnap_fresh_proj st r t hi
      rw [hd]
    | some i =>
      cases hp : st.prev_wh_out with
      | none => simp [update, numSnap, vget, hi, hp]
      | some p =>
        obtain ⟨hd, -⟩ := update_numSnap_next_proj st r t p i hi hp
        rw [hd]
        have : (0 : ℚ) ≤ if r - p < 0 then 0 else r - p := by
          split <;> linarith
        linarith
  · intro st r t p hp hrp
    cases hi : st.initial_wh_out with
    | none =>
      obtain ⟨hd, -⟩ := update_numSnap_fresh_proj st r t hi
      rw [hd]
    | some i =>
      obtain ⟨hd, -⟩ := update_numSnap_next_proj st r t p i hi hp
      rw [hd, if_pos (by linarith : r - p < 0)]
      ring

/-- C2 witness: from the state reached by the baseline reading 10, the
reading 3 (a reset) leaves the cumulative total unchanged. -/
theorem C2_witness :
    (feed freshSt [10]).delta_wh
      ≤ ((update (feed freshSt [10]) (numSnap 3) 5).1).delta_wh ∧
    ((update (feed freshSt [10]) (numSnap 3) 5).1).delta_wh
      = (feed freshSt [10]).delta_wh :=
  ⟨C2_reset_handling.1 (feed freshSt [10]) 3 5,
   C2_reset_handling.2.1 (feed freshSt [10]) 3 5 10
     (by norm_num [feed, update, numSnap, vget, entryField, freshSt, appendBounded])
     (by norm_num)⟩

/-- C3, evaluated at the failing input: after the baseline reading 10, an
`update` whose snapshot carries `whOut = 20` together with an `ampsOut` on
which `float` raises fails — but only after `delta_wh` (cumulativeOutWh)
and `prev_wh_out` have been mutated, because the history-entry literal
(storage.py line 180) re-converts `ampsOut` outside any try/except. -/
theorem C3_failed_update_mutates :
    (update (feed freshSt [10]) snapAmpsBad 1).2 = some Err.convError ∧
    ((update (feed freshSt [10]) snapAmpsBad 1).1).delta_wh = 10 ∧
    (feed freshSt [10]).delta_wh = 0 ∧
    ((update (feed freshSt [10]) snapAmpsBad 1).1).prev_wh_out = some 20 ∧
    (feed freshSt [10]).prev_wh_out = some 10 := by
  norm_num [feed, update, numSnap, snapAmpsBad, vget, entryField, freshSt,
    appendBounded, toFloat?]

/-- C4, evaluated at the failing inputs: with a valid `whOut`, a `whStored`
on which `float` raises is ignored for the `stored_wh` overwrite (caught at
storage.py lines 167-172) — yet the same value makes the history-entry
literal (line 183) raise, so `update` does not complete; likewise a failed
watts derivation leaves `wattsOut` absent but the unguarded `float(amps)`
at line 180 raises. -/
theorem C4_optional_field_raises :
    (update freshSt snapStoredBad 0).2 = some Err.convError ∧
    ((update freshSt snapStoredBad 0).1).stored_wh = freshSt.stored_wh ∧
    (update freshSt snapDeriveBad 0).2 = some Err.convError := by
  norm_num [update, snapStoredBad, snapDeriveBad, numSnap, vget, entryField,
    freshSt, toFloat?]

lemma update_fields (st : EnergyStorage) (s : Snapshot) (t : ℚ) :
    ((update st s t).1).capacity_wh = st.capacity_wh ∧
    (((update st s t).1).stored_wh = st.stored_wh ∨
      ∃ q : ℚ, toFloat? (vget s.whStored) = some q ∧
        ((update st s t).1).stored_wh
          = if q > st.capacity_wh then st.capacity_wh else q) := by
  unfold update
  split
  · exact ⟨rfl, Or.inl rfl⟩
  · exact ⟨rfl, Or.inl rfl⟩
  · next raw heq =>
    dsimp only
    split
    · exact ⟨rfl, Or.inl rfl⟩
    · next st1 delta heq2 =>
      have hst1 : st1.capacity_wh = st.capacity_wh ∧ st1.stored_wh = st.stored_wh := by
        rcases hii : st.initial_wh_out with _ | i <;> rw [hii] at heq2
        · simp only [Option.some.injEq, Prod.mk.injEq] at heq2
          rcases heq2 with ⟨h1, -⟩
          rw [← h1]
          exact ⟨rfl, rfl⟩
        · rcases hpp : st.prev_wh_out with _ | p <;> rw [hpp] at heq2
          · simp at heq2
          · simp only [Option.some.injEq, Prod.mk.injEq] at heq2
            rcases heq2 with ⟨h1, -⟩
            rw [← h1]
            exact ⟨rfl, rfl⟩
      obtain ⟨hc1, hs1⟩ := hst1
      rcases hws : vget s.whStored with q | _ | _
      · simp only [hws, entryField, toFloat?]
        split <;> exact ⟨by simp [hc1], Or.inr ⟨q, rfl, by simp [hc1]⟩⟩
      · simp only [hws, entryField, toFloat?]
        split <;> exact ⟨by simp [hc1], Or.inl (by simp [hs1])⟩
      · simp only [hws, entryField, toFloat?]
        split <;> exact ⟨by simp [hc1], Or.inl (by simp [hs1])⟩

lemma applyOp_inv (st : EnergyStorage) (op : Op)
    (h1 : 0 ≤ st.capacity_wh) (h2 : st.stored_wh ≤ st.capacity_wh) :
    0 ≤ (applyOp st op).capacity_wh ∧
    (applyOp st op).stored_wh ≤ (applyOp st op).capacity_wh ∧
    (noNegStored op → 0 ≤ st.stored_wh → 0 ≤ (applyOp st op).stored_wh) := by
  cases op with
  | setCap v =>
    rcases h : set_capacity st v with e | st1
    · simp only [applyOp, h]
      exact ⟨h1, h2, fun _ h0 => h0⟩
    · simp only [applyOp, h]
      unfold set_capacity at h
      split at h
      · exact absurd h (by simp)
      · next hv =>
        simp only [Except.ok.injEq] at h
        subst h
        have hv' : (0 : ℚ) ≤ v := by linarith
        have hcap : 0 ≤ v * conversions st.unit :=
          mul_nonneg hv' (le_of_lt (conversions_pos st.unit))
        refine ⟨hcap, ?_, ?_⟩
        · dsimp only
          split <;> linarith
        · intro _ h0
          dsimp only
          split <;> linarith
  | setStored v =>
    rcases h : set_stored st v with e | st1
    · simp only [applyOp, h]
      exact ⟨h1, h2, fun _ h0 => h0⟩
    · simp only [applyOp, h]
      unfold set_stored at h
      dsimp only at h
      split at h
      · exact absurd h (by simp)
      · next hv =>
        split at h
        · exact absurd h (by simp)
        · next hover =>
          simp only [Except.ok.injEq] at h
          subst h
          have hv' : (0 : ℚ) ≤ v := by linarith
          refine ⟨h1, by dsimp only; linarith, ?_⟩
          intro _ _
          dsimp only
          exact mul_nonneg hv' (le_of_lt (conversions_pos st.unit))
  | switchU u =>
    rcases h : switch_unit st u with e | st1
    · simp only [applyOp, h]
      exact ⟨h1, h2, fun _ h0 => h0⟩
    · simp only [applyOp, h]
      unfold switch_unit at h
      split at h
      · exact absurd h (by simp)
      · simp only [Except.ok.injEq] at h
        subst h
        exact ⟨h1, h2, fun _ h0 => h0⟩
  | upd s t =>
    obtain ⟨hcap, hstored⟩ := update_fields st s t
    simp only [applyOp]
    rcases hstored with h | ⟨q, hq, h⟩
    · rw [hcap, h]
      exact ⟨h1, h2, fun _ h0 => h0⟩
    · rw [hcap, h]
      refine ⟨h1, by split <;> linarith, ?_⟩
      intro hng _
      have hq0 : 0 ≤ q := hng q hq
      split <;> linarith

lemma runOps_inv (ops : List Op) :
    ∀ st : EnergyStorage, 0 ≤ st.capacity_wh → st.stored_wh ≤ st.capacity_wh →
      0 ≤ (runOps st ops).capacity_wh ∧
      (runOps st ops).stored_wh ≤ (runOps st ops).capacity_wh ∧
      ((∀ op ∈ ops, noNegStored op) → 0 ≤ st.stored_wh →
        0 ≤ (runOps st ops).stored_wh) := by
  induction ops with
  | nil => intro st h1 h2; exact ⟨h1, h2, fun _ h0 => h0⟩
  | cons op rest ih =>
    intro st h1 h2
    obtain ⟨g1, g2, g3⟩ := applyOp_inv st op h1 h2
    have hstep : runOps st (op :: rest) = runOps (applyOp st op) rest := rfl
    obtain ⟨r1, r2, r3⟩ := ih (applyOp st op) g1 g2
    rw [hstep]
    refine ⟨r1, r2, ?_⟩
    intro hall h0
    exact r3 (fun o ho => hall o (List.mem_cons_of_mem _ ho))
      (g3 (hall op (List.mem_cons_self _ _)) h0)

lemma initLedger_inv (c s0 : ℚ) (u : EnergyUnit) (mh : ℕ) (st0 : EnergyStorage)
    (h : initLedger c s0 u mh = Except.ok st0) :
    0 ≤ st0.capacity_wh ∧ 0 ≤ st0.stored_wh ∧ st0.stored_wh ≤ st0.capacity_wh := by
  unfold initLedger set_capacity set_stored at h
  split at h
  · next hc => simp at h
  · next hc =>
    dsimp only at h
    split at h
    · next hs => simp at h
    · next st2 hs =>
      simp only [Except.ok.injEq] at h
      subst h
      split at hs
      · simp at hs
      · next hs0 =>
        split at hs
        · simp at hs
        · next hover =>
          simp only [Except.ok.injEq] at hs
          subst hs
          have hc' : (0 : ℚ) ≤ c := by linarith
          have hs0' : (0 : ℚ) ≤ s0 := by linarith
          have hcp := conversions_pos u
          refine ⟨mul_nonneg hc' (le_of_lt hcp), mul_nonneg hs0' (le_of_lt hcp), by dsimp only; linarith⟩

lemma val_num_eq_none_iff (q : ℚ) : (Val.num q = Val.none) = False := by simp

/-- C5, as amended: after construction and every sequence of operations,
`stored_wh ≤ capacity_wh` holds (with `capacity_wh` non-negative); and
`stored_wh` also stays non-negative provided every `whStored` value the
device reports (that `float` converts) is non-negative. -/
theorem C5_amended_invariant (c s0 : ℚ) (u : EnergyUnit) (mh : ℕ) (st0 : EnergyStorage)
    (ops : List Op) (hinit : initLedger c s0 u mh = Except.ok st0) :
    (runOps st0 ops).stored_wh ≤ (runOps st0 ops).capacity_wh ∧
    0 ≤ (runOps st0 ops).capacity_wh ∧
    ((∀ op ∈ ops, noNegStored op) → 0 ≤ (runOps st0 ops).stored_wh) := by
  obtain ⟨h1, h0, h2⟩ := initLedger_inv c s0 u mh st0 hinit
  obtain ⟨r1, r2, r3⟩ := runOps_inv ops st0 h1 h2
  exact ⟨r2, r1, fun hall => r3 hall h0⟩

/-- C5 witness: construction with capacity 1000 / stored 500 (wh) followed
by one update with reading 10 keeps `0 ≤ stored_wh ≤ capacity_wh`. -/
theorem C5_witness :
    (runOps freshSt [Op.upd (numSnap 10) 0]).stored_wh
      ≤ (runOps freshSt [Op.upd (numSnap 10) 0]).capacity_wh ∧
    0 ≤ (runOps freshSt [Op.upd (numSnap 10) 0]).capacity_wh ∧
    0 ≤ (runOps freshSt [Op.upd (numSnap 10) 0]).stored_wh := by
  have h := C5_amended_invariant 1000 500 EnergyUnit.wh 1000 freshSt
    [Op.upd (numSnap 10) 0]
    (by norm_num [initLedger, set_capacity, set_stored, conversions, freshSt])
  refine ⟨h.1, h.2.1, h.2.2 ?_⟩
  intro op hop
  rw [List.mem_singleton] at hop
  subst hop
  intro q hq
  simp [numSnap, vget, toFloat?] at hq

/-- C5 counterexample: constructing with capacity 1000 / stored 500 (wh),
taking the baseline reading 0, then an update whose snapshot reports
`whStored = -5` completes without raising and leaves `stored_wh = -5`: the
overwrite at storage.py lines 165-172 clamps only from above, so the
claimed non-negativity of `storedWh` fails. -/
theorem C5_counterexample :
    initLedger 1000 500 EnergyUnit.wh 1000 = Except.ok freshSt ∧
    (update (feed freshSt [0]) snapNegStored 1).2 = Option.none ∧
    ((update (feed freshSt [0]) snapNegStored 1).1).stored_wh = -5 ∧
    ¬ (0 ≤ ((update (feed freshSt [0]) snapNegStored 1).1).stored_wh) := by
  norm_num [initLedger, set_capacity, set_stored, conversions, feed, update,
    numSnap, snapNegStored, vget, entryField, toFloat?, freshSt, appendBounded,
    val_num_eq_none_iff]

/-- C6: the `stored` setter rejects negatives with the InvalidValue error
and conversions exceeding `capacity_wh` with the CapacityExceeded error,
leaving all ledger state unchanged in both cases; on success it stores
exactly the converted value (never clamps) and changes nothing else. -/
theorem C6_stored_setter (st : EnergyStorage) (v : ℚ) :
    (v < 0 → set_stored st v = Except.error Err.invalidValue ∧
      applyOp st (Op.setStored v) = st) ∧
    (0 ≤ v → v * conversions st.unit > st.capacity_wh →
      set_stored st v = Except.error Err.capacityExceeded ∧
      applyOp st (Op.setStored v) = st) ∧
    (∀ st1, set_stored st v = Except.ok st1 →
      st1 = { st with stored_wh := v * conversions st.unit }) := by
  refine ⟨?_, ?_, ?_⟩
  · intro hv
    have he : set_stored st v = Except.error Err.invalidValue := by
      unfold set_stored
      rw [if_pos hv]
    exact ⟨he, by simp only [applyOp, he]⟩
  · intro hv hover
    have he : set_stored st v = Except.error Err.capacityExceeded := by
      unfold set_stored
      rw [if_neg (by linarith)]
      dsimp only
      rw [if_pos hover]
    exact ⟨he, by simp only [applyOp, he]⟩
  · intro st1 h
    unfold set_stored at h
    split at h
    · exact absurd h (by simp)
    · dsimp only at h
      split at h
      · exact absurd h (by simp)
      · simp only [Except.ok.injEq] at h
        exact h.symm

/-- C6 witness: on the scenario ledger, -1 raises InvalidValue, 2000
raises CapacityExceeded (capacity is 1000), and 300 is stored exactly. -/
theorem C6_witness :
    (set_stored freshSt (-1) = Except.error Err.invalidValue ∧
      applyOp freshSt (Op.setStored (-1)) = freshSt) ∧
    (set_stored freshSt 2000 = Except.error Err.capacityExceeded ∧
      applyOp freshSt (Op.setStored 2000) = freshSt) ∧
    { freshSt with stored_wh := 300 }
      = { freshSt with stored_wh := 300 * conversions freshSt.unit } :=
  ⟨(C6_stored_setter freshSt (-1)).1 (by norm_num),
   (C6_stored_setter freshSt 2000).2.1 (by norm_num)
     (by norm_num [conversions, freshSt]),
   (C6_stored_setter freshSt 300).2.2 { freshSt with stored_wh := 300 }
     (by norm_num [set_stored, freshSt, conversions])⟩

/-- C7: the capacity setter succeeds on any non-negative value; when the
new canonical capacity is below the current stored energy it clamps
`stored_wh` to exactly the new capacity; a negative value fails with the
InvalidValue error leaving state unchanged. -/
theorem C7_capacity_setter (st : EnergyStorage) (v : ℚ) :
    (0 ≤ v → v * conversions st.unit < st.stored_wh →
      set_capacity st v = Except.ok
        { st with capacity_wh := v * conversions st.unit,
                  stored_wh := v * conversions st.unit }) ∧
    (v < 0 → set_capacity st v = Except.error Err.invalidValue ∧
      applyOp st (Op.setCap v) = st) := by
  constructor
  · intro hv hlt
    unfold set_capacity
    rw [if_neg (by linarith)]
    dsimp only
    rw [if_pos (by linarith : st.stored_wh > v * conversions st.unit)]
  · intro hv
    have he : set_capacity st v = Except.error Err.invalidValue := by
      unfold set_capacity
      rw [if_pos hv]
    exact ⟨he, by simp only [applyOp, he]⟩

/-- C7 witness: shrinking capacity to 200 on the scenario ledger (stored
500) clamps stored to 200; capacity -2 raises InvalidValue. -/
theorem C7_witness :
    set_capacity freshSt 200 = Except.ok
      { freshSt with capacity_wh := 200 * conversions freshSt.unit,
                     stored_wh := 200 * conversions freshSt.unit } ∧
    (set_capacity freshSt (-2) = Except.error Err.invalidValue ∧
      applyOp freshSt (Op.setCap (-2)) = freshSt) :=
  ⟨(C7_capacity_setter freshSt 200).1 (by norm_num)
     (by norm_num [conversions, freshSt]),
   (C7_capacity_setter freshSt (-2)).2 (by norm_num)⟩

/-- C8: `switch_unit` with a name in `{wh, kwh, j}` changes only the
display unit and never the canonical values; setting capacity or stored to
`x` and reading it back in the same unit returns exactly `x` (floats
modelled as exact rationals); with unit kwh, capacity 2 stores a canonical
2000 while the getter returns 2. -/
theorem C8_unit_lens_roundtrip :
    (∀ (st : EnergyStorage) (nm : String) (u : EnergyUnit), parseUnit nm = some u →
      switch_unit st nm = Except.ok { st with unit := u }) ∧
    (∀ (st st1 : EnergyStorage) (x : ℚ),
      set_capacity st x = Except.ok st1 → getCapacity st1 = x) ∧
    (∀ (st st1 : EnergyStorage) (x : ℚ),
      set_stored st x = Except.ok st1 → getStored st1 = x) ∧
    (set_capacity kwhLedger 2).map (fun st1 => (st1.capacity_wh, getCapacity st1))
      = Except.ok (2000, 2) := by
  refine ⟨?_, ?_, ?_, ?_⟩
  · intro st nm u h
    unfold switch_unit
    rw [h]
  · intro st st1 x h
    unfold set_capacity at h
    split at h
    · exact absurd h (by simp)
    · next hv =>
      simp only [Except.ok.injEq] at h
      subst h
      unfold getCapacity wh_to
      dsimp only
      exact mul_div_cancel_right₀ x (ne_of_gt (conversions_pos st.unit))
  · intro st st1 x h
    unfold set_stored at h
    split at h
    · exact absurd h (by simp)
    · dsimp only at h
      split at h
      · exact absurd h (by simp)
      · simp only [Except.ok.injEq] at h
        subst h
        unfold getStored wh_to
        dsimp only
        exact mul_div_cancel_right₀ x (ne_of_gt (conversions_pos st.unit))
  · norm_num [set_capacity, kwhLedger, freshSt, conversions, getCapacity,
      wh_to, Except.map]

/-- C8 witness: switching the scenario ledger to kwh, and reading back a
capacity of 2 and a stored value of 40 in the unit they were set in. -/
theorem C8_witness :
    switch_unit freshSt "kwh" = Except.ok { freshSt with unit := EnergyUnit.kwh } ∧
    getCapacity { freshSt with capacity_wh := 2, stored_wh := 2 } = 2 ∧
    getStored { freshSt with stored_wh := 40 } = 40 :=
  ⟨C8_unit_lens_roundtrip.1 freshSt "kwh" EnergyUnit.kwh rfl,
   C8_unit_lens_roundtrip.2.1 freshSt _ 2
     (by norm_num [set_capacity, freshSt, conversions]),
   C8_unit_lens_roundtrip.2.2.1 freshSt _ 40
     (by norm_num [set_stored, freshSt, conversions])⟩

/-- C9: `average_power_w` returns none when fewer than two history entries
exist or when the elapsed time between the first and last retained entries
is non-positive (identical timestamps included); otherwise it returns
`(last.total_wh - first.total_wh) / (last.timestamp - first.timestamp) * 3600`. -/
theorem C9_average_power (st : EnergyStorage) :
    (st.history.length < 2 → average_power_w st = Option.none) ∧
    (∀ e1 e2, st.history.head? = some e1 → st.history.getLast? = some e2 →
      (e2.timestamp - e1.timestamp ≤ 0 → average_power_w st = Option.none) ∧
      (2 ≤ st.history.length → 0 < e2.timestamp - e1.timestamp →
        average_power_w st
          = some ((e2.total_wh - e1.total_wh)
              / (e2.timestamp - e1.timestamp) * 3600))) := by
  constructor
  · intro h
    unfold average_power_w
    rw [if_pos h]
  · intro e1 e2 h1 h2
    constructor
    · intro hdt
      unfold average_power_w
      split
      · rfl
      · rw [h1, h2]
        dsimp only
        rw [if_pos hdt]
    · intro hlen hdt
      unfold average_power_w
      rw [if_neg (by omega : ¬ st.history.length < 2), h1, h2]
      dsimp only
      rw [if_neg (by linarith : ¬ (e2.timestamp - e1.timestamp ≤ 0))]

/-- C9 witness: none on an empty history; the rate formula on a two-entry
history one second apart. -/
theorem C9_witness :
    average_power_w freshSt = Option.none ∧
    average_power_w histSt
      = some (((entryAt 101 8).total_wh - (entryAt 100 5).total_wh)
          / ((entryAt 101 8).timestamp - (entryAt 100 5).timestamp) * 3600) :=
  ⟨(C9_average_power freshSt).1 (by norm_num [freshSt]),
   ((C9_average_power histSt).2 (entryAt 100 5) (entryAt 101 8) rfl rfl).2
     (by norm_num [histSt, freshSt]) (by norm_num [entryAt])⟩

/-- C10 counterexample: a snapshot whose `whOut` key is present but maps
to Python `None` — a value `float` cannot convert — makes `update` raise
the MissingField KeyError rather than a conversion error, because
`dict.get` cannot distinguish a key mapped to `None` from a missing key;
the ledger state is unchanged either way. -/
theorem C10_counterexample :
    snapNoneWhOut.whOut = some Val.none ∧
    update freshSt snapNoneWhOut 0 = (freshSt, some Err.missingField) ∧
    Err.missingField ≠ Err.convError :=
  ⟨rfl, rfl, by simp⟩

/-- C10, as amended: when the snapshot's `whOut` is neither absent/`None`
nor convertible, `update` raises the conversion error — distinct from
MissingField — and leaves the ledger state unchanged, the conversion being
attempted before any mutation. -/
theorem C10_unconvertible_whOut (st : EnergyStorage) (s : Snapshot) (t : ℚ)
    (h : vget s.whOut = Val.bad) :
    update st s t = (st, some Err.convError) ∧ Err.convError ≠ Err.missingField := by
  refine ⟨?_, by simp⟩
  unfold update
  rw [h]

/-- C10 witness: a `whOut` on which `float` raises. -/
theorem C10_witness :
    update freshSt snapBadWhOut 3 = (freshSt, some Err.convError) ∧
    Err.convError ≠ Err.missingField :=
  C10_unconvertible_whOut freshSt snapBadWhOut 3 rfl
